import Mathlib

/-!
Verification development for the dicom-transfer batch-upload/download tool.

The development shallowly embeds the orchestration core of the program:

* `Utils::getFileName` / `Utils::generateS3Key` / `Utils::joinPath`
  (src/utils.cpp) as pure string functions;
* the result aggregation loops (`ok &= future.get()` in main.cpp) as
  `reduce`;
* `DicomProcessor::groupFilesByStudy` (src/dicom_processor.cpp) and the
  DICOM / non-DICOM partition loop of `uploadMode` as list functions
  parameterised by the classifier oracles `isDicomFile` and `getStudyUid`
  (the DCMTK calls are external I/O and enter only through these oracles;
  the C++ `std::map` is rendered as an association list with unique keys,
  which preserves the per-key member lists and the multiset of routed
  files while abstracting the key ordering);
* the `ThreadPool` of src/thread_pool.cpp / thread_pool.h as an
  interleaving transition system over an explicit pool state;
* the per-study group task, the per-file upload tasks and `downloadMode`
  of main.cpp as functions of oracle environments recording which
  subtasks were submitted and which outcome each branch returns.
-/

namespace DicomTransfer

/-- The suffix of a character list after its last `'/'`. -/
def basenameChars (cs : List Char) : List Char :=
  (cs.reverse.takeWhile (fun c => !(c == '/'))).reverse

/-- `Utils::getFileName` (src/utils.cpp): `fs::path(filepath).filename()`,
the component after the final separator of a POSIX path. -/
def getFileName (filepath : String) : String :=
  String.mk (basenameChars filepath.data)

/-- `Utils::joinPath` (src/utils.cpp): `basePath / relativePath` for a
relative second component. -/
def joinPath (base relative : String) : String :=
  base ++ "/" ++ relative

/-- `Utils::generateS3Key` (src/utils.cpp lines 173-176):
`"studies/" + studyUid + "/" + getFileName(filepath)`. -/
def generateS3Key (studyUid filepath : String) : String :=
  "studies/" ++ studyUid ++ "/" ++ getFileName filepath

/-- The result-aggregation loops of main.cpp
(`allFilesUploaded &= future.get();` etc.): left fold of logical AND
over the collected task outcomes, starting from `true`. -/
def reduce (outcomes : List Bool) : Bool :=
  outcomes.foldl (fun acc b => acc && b) true

/-- Insertion into the study map: `studyGroups[studyUid].push_back(filepath)`
on an association list — append to the member list of the matching key,
or create a fresh singleton entry. -/
def insertGroup : List (String × List String) → String → String → List (String × List String)
  | [], uid, f => [(uid, [f])]
  | (k, fs) :: rest, uid, f =>
      if k = uid then (k, fs ++ [f]) :: rest
      else (k, fs) :: insertGroup rest uid f

/-- `DicomProcessor::groupFilesByStudy` (src/dicom_processor.cpp lines
132-147): for each file, read its study UID; if non-empty, append the
file to that study's list, otherwise only log a warning (the file is
routed nowhere). -/
def groupFilesByStudy (getStudyUid : String → String) (dicomFiles : List String) :
    List (String × List String) :=
  dicomFiles.foldl
    (fun groups f =>
      if getStudyUid f = "" then groups else insertGroup groups (getStudyUid f) f)
    []

/-- The DICOM / non-DICOM partition loop of `uploadMode`
(src/unnamed/part_000 lines 107-126): push each file onto `dicomFiles`
when `isDicomFile` holds, else onto `nonDicomFiles`. -/
def splitDicom (isDicomFile : String → Bool) (allFiles : List String) :
    List String × List String :=
  allFiles.foldl
    (fun acc f => if isDicomFile f then (acc.1 ++ [f], acc.2) else (acc.1, acc.2 ++ [f]))
    ([], [])

/-- All files held in the study map, in map order. -/
def groupMembers (groups : List (String × List String)) : List String :=
  (groups.map Prod.snd).flatten

/-- The combined output of the grouping stage of `uploadMode`: every
study's member list together with the non-DICOM (unclassified) list. -/
def groupingOutputs (isDicomFile : String → Bool) (getStudyUid : String → String)
    (allFiles : List String) : List String :=
  groupMembers (groupFilesByStudy getStudyUid (splitDicom isDicomFile allFiles).1) ++
    (splitDicom isDicomFile allFiles).2

/-! ### Lemmas about the grouping stage -/

theorem splitDicom_foldl (c : String → Bool) :
    ∀ (files a b : List String),
      files.foldl
        (fun acc f => if c f then (acc.1 ++ [f], acc.2) else (acc.1, acc.2 ++ [f])) (a, b) =
        (a ++ files.filter c, b ++ files.filter (fun f => !(c f)))
  | [], a, b => by simp
  | f :: rest, a, b => by
      by_cases h : c f = true
      · simp [List.foldl_cons, h, splitDicom_foldl c rest (a ++ [f]) b,
          List.filter_cons]
      · simp only [Bool.not_eq_true] at h
        simp [List.foldl_cons, h, splitDicom_foldl c rest a (b ++ [f]),
          List.filter_cons]

theorem splitDicom_spec (c : String → Bool) (files : List String) :
    splitDicom c files = (files.filter c, files.filter (fun f => !(c f))) := by
  simpa using splitDicom_foldl c files [] []

theorem groupMembers_insertGroup (uid f : String) :
    ∀ m : List (String × List String),
      (groupMembers (insertGroup m uid f)).Perm (f :: groupMembers m)
  | [] => by simp [insertGroup, groupMembers]
  | (k, fs) :: rest => by
      simp only [groupMembers, insertGroup, List.map_cons, List.flatten_cons]
      by_cases h : k = uid
      · subst h
        rw [if_pos rfl]
        simp only [List.map_cons, List.flatten_cons, List.append_assoc,
          List.singleton_append]
        exact List.perm_middle
      · rw [if_neg h]
        simp only [List.map_cons, List.flatten_cons]
        have ih := groupMembers_insertGroup uid f rest
        simp only [groupMembers] at ih
        exact (ih.append_left fs).trans List.perm_middle

theorem groupMembers_foldl (u : String → String) :
    ∀ (files : List String) (m : List (String × List String)),
      (groupMembers (files.foldl
          (fun groups f => if u f = "" then groups else insertGroup groups (u f) f) m)).Perm
        (groupMembers m ++ files.filter (fun f => !(decide (u f = ""))))
  | [], m => by simp
  | f :: rest, m => by
      by_cases h : u f = ""
      · simpa [List.foldl_cons, h, List.filter_cons] using groupMembers_foldl u rest m
      · have ih := groupMembers_foldl u rest (insertGroup m (u f) f)
        have hins := (groupMembers_insertGroup (u f) f m).append_right
          (rest.filter (fun g => !(decide (u g = ""))))
        have hp : (!(decide (u f = ""))) = true := by simp [h]
        simp only [List.foldl_cons, if_neg h, List.filter_cons, hp, if_pos]
        exact (ih.trans hins).trans List.perm_middle.symm

theorem filter_combine (c : String → Bool) (u : String → String) :
    ∀ l : List String,
      ((l.filter c).filter (fun f => !(decide (u f = ""))) ++
          l.filter (fun f => !(c f))).Perm
        (l.filter (fun f => !(c f && decide (u f = ""))))
  | [] => by simp
  | a :: l => by
      by_cases hc : c a = true
      · by_cases hu : u a = ""
        · simpa [List.filter_cons, hc, hu] using filter_combine c u l
        · simpa [List.filter_cons, hc, hu] using (filter_combine c u l).cons a
      · simp only [Bool.not_eq_true] at hc
        simp only [List.filter_cons, hc, Bool.false_and, Bool.not_false, Bool.not_true,
          cond_false, cond_true]
        exact List.perm_middle.trans ((filter_combine c u l).cons a)

/-- C1 (amended): the grouping stage routes every file that is either
non-DICOM (to the unclassified list) or DICOM with a non-empty study UID
(to exactly one group's member list); a file recognized as DICOM whose
study UID comes back empty is routed to neither output.  The multiset
union of all output lists therefore equals the input multiset with those
empty-UID DICOM files removed. -/
theorem grouping_routes_remaining_files (c : String → Bool) (u : String → String)
    (files : List String) :
    ((groupingOutputs c u files : List String) : Multiset String) =
      ((files.filter (fun f => !(c f && decide (u f = ""))) : List String) : Multiset String) := by
  rw [Multiset.coe_eq_coe]
  unfold groupingOutputs groupFilesByStudy
  rw [splitDicom_spec]
  exact (((groupMembers_foldl u (files.filter c) []).append_right _).trans
    (filter_combine c u files))

/-- C1 (counterexample to the claim as stated): with a classifier that
accepts the file as DICOM but yields an empty study UID, the single
input file "a" appears in no output list, so the multiset union of the
outputs differs from the input multiset — the file is dropped (the
source only logs a warning at dicom_processor.cpp line 142). -/
theorem grouping_drops_empty_uid_file :
    groupingOutputs (fun _ => true) (fun _ => "") ["a"] = [] ∧
      ¬ (((groupingOutputs (fun _ => true) (fun _ => "") ["a"] : List String) : Multiset String) =
          ((["a"] : List String) : Multiset String)) := by
  constructor
  · rfl
  · intro h
    rw [Multiset.coe_eq_coe] at h
    have : (groupingOutputs (fun _ => true) (fun _ => "") ["a"]).length = 1 := h.length_eq
    simp [groupingOutputs, splitDicom, groupFilesByStudy, groupMembers] at this

/-! ### The result aggregator -/

theorem reduce_foldl (l : List Bool) : ∀ a : Bool,
    l.foldl (fun x y => x && y) a = (a && l.all id) := by
  induction l with
  | nil => intro a; simp
  | cons b t ih =>
      intro a
      simp [List.foldl_cons, ih, Bool.and_assoc]

theorem reduce_eq_all (l : List Bool) : reduce l = l.all id := by
  simpa using reduce_foldl l true

theorem reduce_eq_true_iff (l : List Bool) : reduce l = true ↔ ∀ b ∈ l, b = true := by
  simp [reduce_eq_all, List.all_eq_true]

/-- C6: the aggregation used for group and run outcomes is the pure
logical AND of the collected outcomes: the empty list reduces to `true`,
the reduction is `true` iff every element is `true`, and the result is
invariant under permutation of the outcomes. -/
theorem reduce_is_pure_and :
    reduce [] = true ∧
      (∀ l : List Bool, (reduce l = true ↔ ∀ b ∈ l, b = true)) ∧
      (∀ l₁ l₂ : List Bool, l₁.Perm l₂ → reduce l₁ = reduce l₂) := by
  refine ⟨rfl, reduce_eq_true_iff, ?_⟩
  intro l₁ l₂ h
  by_cases h1 : reduce l₁ = true
  · have h2 : reduce l₂ = true :=
      (reduce_eq_true_iff l₂).mpr fun b hb =>
        (reduce_eq_true_iff l₁).mp h1 b (h.mem_iff.mpr hb)
    rw [h1, h2]
  · have h2 : ¬ reduce l₂ = true := fun hc =>
      h1 ((reduce_eq_true_iff l₁).mpr fun b hb =>
        (reduce_eq_true_iff l₂).mp hc b (h.mem_iff.mp hb))
    simp only [Bool.not_eq_true] at h1 h2
    rw [h1, h2]

/-- C6 witness: permuting a concrete outcome list leaves the reduction
unchanged. -/
theorem reduce_is_pure_and_witness :
    reduce [true, false, true] = reduce [false, true, true] :=
  reduce_is_pure_and.2.2 [true, false, true] [false, true, true] (by decide)

/-! ### The remote key derivation -/

/-- C10: `generateS3Key` depends only on the study UID and the file's
basename — it is literally `"studies/" ++ uid ++ "/" ++ basename` — so
two member files with equal basenames (for instance the same filename in
different subdirectories) are assigned the same remote key and their
uploads target the same object. -/
theorem s3Key_depends_only_on_basename (studyUid f₁ f₂ : String) :
    generateS3Key studyUid f₁ = "studies/" ++ studyUid ++ "/" ++ getFileName f₁ ∧
      (getFileName f₁ = getFileName f₂ →
        generateS3Key studyUid f₁ = generateS3Key studyUid f₂) := by
  refine ⟨rfl, fun h => ?_⟩
  simp [generateS3Key, h]

/-- C10 witness: two files with the same basename in different
directories collide on the same remote key. -/
theorem s3Key_depends_only_on_basename_witness :
    getFileName "dirA/x.dcm" = getFileName "dirB/x.dcm" ∧
      generateS3Key "1.2.3" "dirA/x.dcm" = generateS3Key "1.2.3" "dirB/x.dcm" :=
  ⟨by decide,
   (s3Key_depends_only_on_basename "1.2.3" "dirA/x.dcm" "dirB/x.dcm").2 (by decide)⟩

/-! ### The bounded worker pool (src/thread_pool.h, src/thread_pool.cpp)

The pool is embedded as an interleaving transition system.  A state
records the `stop` flag, the FIFO `tasks` queue (tasks are identified by
their submission index), the status of each of the `W` worker threads,
the number of tasks accepted so far, and the multiset of task ids whose
bodies have finished executing (i.e. whose `std::future` handles are
completed).  The transitions are exactly the atomic actions of the
source: `enqueue` appends to the queue while the pool is open and the
queue has room (thread_pool.h lines 52-65); a worker that wakes with the
stop flag set and an empty queue returns (thread_pool.cpp line 78);
otherwise it pops the head task and runs it (lines 81-90); finishing a
task completes its handle; the destructor sets `stop`
(thread_pool.cpp lines 101-105). -/

/-- The status of one pool worker thread. -/
inductive WorkerState where
  | idle
  | running (task : Nat)
  | terminated
deriving DecidableEq

/-- The task (if any) currently executed by a worker, as a multiset. -/
def workerTasks : WorkerState → Multiset Nat
  | WorkerState.running t => {t}
  | _ => 0

/-- The shared state of a `ThreadPool` with `W` worker threads. -/
structure PoolState (W : Nat) where
  stop : Bool
  queue : List Nat
  workers : Fin W → WorkerState
  submitted : Nat
  executed : Multiset Nat

/-- The multiset of task ids currently being executed by some worker. -/
def inFlight {W : Nat} (workers : Fin W → WorkerState) : Multiset Nat :=
  Finset.univ.sum fun w => workerTasks (workers w)

/-- One atomic action of the pool or of a client thread. -/
inductive PoolStep (W maxQ : Nat) : PoolState W → PoolState W → Prop where
  | enqueue (s : PoolState W) (hstop : s.stop = false) (hroom : s.queue.length < maxQ) :
      PoolStep W maxQ s
        { s with queue := s.queue ++ [s.submitted], submitted := s.submitted + 1 }
  | take (s : PoolState W) (w : Fin W) (t : Nat) (rest : List Nat)
      (hw : s.workers w = WorkerState.idle) (hq : s.queue = t :: rest) :
      PoolStep W maxQ s
        { s with queue := rest,
                 workers := Function.update s.workers w (WorkerState.running t) }
  | finish (s : PoolState W) (w : Fin W) (t : Nat)
      (hw : s.workers w = WorkerState.running t) :
      PoolStep W maxQ s
        { s with workers := Function.update s.workers w WorkerState.idle,
                 executed := t ::ₘ s.executed }
  | terminate (s : PoolState W) (w : Fin W) (hw : s.workers w = WorkerState.idle)
      (hstop : s.stop = true) (hq : s.queue = []) :
      PoolStep W maxQ s
        { s with workers := Function.update s.workers w WorkerState.terminated }
  | setStop (s : PoolState W) :
      PoolStep W maxQ s { s with stop := true }

/-- The state of a freshly constructed pool. -/
def initState (W : Nat) : PoolState W :=
  { stop := false, queue := [], workers := fun _ => WorkerState.idle,
    submitted := 0, executed := 0 }

/-- The reachable pool states. -/
inductive PoolReachable (W maxQ : Nat) : PoolState W → Prop where
  | init : PoolReachable W maxQ (initState W)
  | step {s t : PoolState W} :
      PoolReachable W maxQ s → PoolStep W maxQ s t → PoolReachable W maxQ t

/-- The inductive invariant of the pool: a terminated worker means the
stop flag was set; once every worker has terminated the queue is empty;
and the accepted tasks split exactly into executed, in-flight and queued
ones. -/
def PoolInv (W : Nat) (s : PoolState W) : Prop :=
  (∀ w, s.workers w = WorkerState.terminated → s.stop = true) ∧
    (0 < W → (∀ w, s.workers w = WorkerState.terminated) → s.queue = []) ∧
    s.executed + inFlight s.workers + (s.queue : Multiset Nat) =
      Multiset.range s.submitted

theorem inFlight_decompose {W : Nat} (f : Fin W → WorkerState) (w : Fin W) :
    inFlight f = workerTasks (f w) +
      Finset.sum (Finset.univ.erase w) (fun x => workerTasks (f x)) :=
  (Finset.add_sum_erase _ _ (Finset.mem_univ w)).symm

theorem inFlight_update {W : Nat} (f : Fin W → WorkerState) (w : Fin W)
    (ws : WorkerState) :
    inFlight (Function.update f w ws) + workerTasks (f w) =
      inFlight f + workerTasks ws := by
  rw [inFlight_decompose (Function.update f w ws) w, inFlight_decompose f w,
    Function.update_same]
  have herase : Finset.sum (Finset.univ.erase w)
      (fun x => workerTasks (Function.update f w ws x)) =
      Finset.sum (Finset.univ.erase w) (fun x => workerTasks (f x)) := by
    refine Finset.sum_congr rfl ?_
    intro x hx
    rw [Function.update_noteq (Finset.ne_of_mem_erase hx)]
  rw [herase]
  abel

theorem poolInv_reachable {W maxQ : Nat} {s : PoolState W}
    (h : PoolReachable W maxQ s) : PoolInv W s := by
  induction h with
  | init =>
      refine ⟨fun w hw => by simp [initState] at hw, fun _ _ => rfl, ?_⟩
      simp [initState, inFlight, workerTasks]
  | step hr hstep ih =>
      rename_i s s2
      obtain ⟨ih1, ih2, ih3⟩ := ih
      cases hstep with
      | enqueue hstop hroom =>
          refine ⟨ih1, ?_, ?_⟩
          · intro hW hall
            exact absurd (ih1 ⟨0, hW⟩ (hall ⟨0, hW⟩)) (by simp [hstop])
          · show s.executed + inFlight s.workers +
              ((s.queue ++ [s.submitted] : List Nat) : Multiset Nat) =
              Multiset.range (s.submitted + 1)
            rw [← Multiset.coe_add, ← add_assoc, ih3, Multiset.coe_singleton,
              add_comm, Multiset.singleton_add, Multiset.range_succ]
      | take w t rest hw hq =>
          refine ⟨?_, ?_, ?_⟩
          · intro w2 hw2
            have hw2x : Function.update s.workers w (WorkerState.running t) w2 =
                WorkerState.terminated := hw2
            show s.stop = true
            by_cases hww : w2 = w
            · subst hww
              rw [Function.update_same] at hw2x
              exact absurd hw2x (by simp)
            · rw [Function.update_noteq hww] at hw2x
              exact ih1 w2 hw2x
          · intro hW hall
            have hx : Function.update s.workers w (WorkerState.running t) w =
                WorkerState.terminated := hall w
            rw [Function.update_same] at hx
            exact absurd hx (by simp)
          · have hupd := inFlight_update s.workers w (WorkerState.running t)
            rw [hw] at hupd
            simp only [workerTasks, add_zero] at hupd
            have h3 := ih3
            rw [hq, ← Multiset.cons_coe, ← Multiset.singleton_add] at h3
            show s.executed + inFlight (Function.update s.workers w
              (WorkerState.running t)) + (rest : Multiset Nat) =
              Multiset.range s.submitted
            rw [hupd, ← h3]
            abel
      | finish w t hw =>
          refine ⟨?_, ?_, ?_⟩
          · intro w2 hw2
            have hw2x : Function.update s.workers w WorkerState.idle w2 =
                WorkerState.terminated := hw2
            show s.stop = true
            by_cases hww : w2 = w
            · subst hww
              rw [Function.update_same] at hw2x
              exact absurd hw2x (by simp)
            · rw [Function.update_noteq hww] at hw2x
              exact ih1 w2 hw2x
          · intro hW hall
            have hx : Function.update s.workers w WorkerState.idle w =
                WorkerState.terminated := hall w
            rw [Function.update_same] at hx
            exact absurd hx (by simp)
          · have hupd := inFlight_update s.workers w WorkerState.idle
            rw [hw] at hupd
            simp only [workerTasks, add_zero] at hupd
            show (t ::ₘ s.executed) + inFlight (Function.update s.workers w
              WorkerState.idle) + (s.queue : Multiset Nat) =
              Multiset.range s.submitted
            rw [← ih3, ← hupd, ← Multiset.singleton_add]
            abel
      | terminate w hw hstop hq =>
          refine ⟨?_, fun _ _ => hq, ?_⟩
          · intro w2 _
            show s.stop = true
            exact hstop
          · have hupd := inFlight_update s.workers w WorkerState.terminated
            rw [hw] at hupd
            simp only [workerTasks, add_zero] at hupd
            show s.executed + inFlight (Function.update s.workers w
              WorkerState.terminated) + (s.queue : Multiset Nat) =
              Multiset.range s.submitted
            rw [hupd]
            exact ih3
      | setStop =>
          exact ⟨fun _ _ => rfl, fun hW hall => ih2 hW hall, ih3⟩

theorem card_workerTasks_le_one (ws : WorkerState) : (workerTasks ws).card ≤ 1 := by
  cases ws <;> simp [workerTasks]

theorem card_inFlight_le {W : Nat} (f : Fin W → WorkerState) :
    (inFlight f).card ≤ W := by
  have hcard : (inFlight f).card =
      Finset.sum Finset.univ (fun w => (workerTasks (f w)).card) := by
    unfold inFlight
    exact map_sum
      (⟨⟨Multiset.card, Multiset.card_zero⟩, Multiset.card_add⟩ :
        Multiset Nat →+ Nat) _ _
  rw [hcard]
  calc Finset.sum Finset.univ (fun w => (workerTasks (f w)).card)
      ≤ Finset.univ.card • 1 :=
        Finset.sum_le_card_nsmul _ _ _ (fun w _ => card_workerTasks_le_one (f w))
    _ = W := by simp

/-- C2: in every reachable state of a pool with `W` workers, each worker
executes at most one dequeued task at a time, and the number of
in-flight tasks never exceeds the worker count `W`. -/
theorem pool_concurrency_bounded (W maxQ : Nat) (s : PoolState W)
    (hreach : PoolReachable W maxQ s) :
    (∀ ws : WorkerState, (workerTasks ws).card ≤ 1) ∧
      (inFlight s.workers).card ≤ W :=
  ⟨card_workerTasks_le_one, card_inFlight_le s.workers⟩

/-- C2 witness: the bound instantiated at the initial state of a
two-worker pool. -/
theorem pool_concurrency_bounded_witness :
    (inFlight (initState 2).workers).card ≤ 2 :=
  (pool_concurrency_bounded 2 1000 (initState 2) PoolReachable.init).2

/-- C4: once shutdown has completed — the stop flag was set and every
worker has drained the queue and terminated — the queue is empty and the
multiset of executed tasks is exactly the multiset of all accepted
tasks: no accepted task is dropped, every submitted handle has been
completed before `shutdown` (the destructor's joins) returns. -/
theorem pool_shutdown_drains (W maxQ : Nat) (s : PoolState W) (hW : 0 < W)
    (hreach : PoolReachable W maxQ s)
    (hterm : ∀ w, s.workers w = WorkerState.terminated) :
    s.queue = [] ∧ s.executed = Multiset.range s.submitted := by
  obtain ⟨inv1, inv2, inv3⟩ := poolInv_reachable hreach
  have hq : s.queue = [] := inv2 hW hterm
  refine ⟨hq, ?_⟩
  have hif : inFlight s.workers = 0 := by
    unfold inFlight
    refine Finset.sum_eq_zero ?_
    intro w _
    rw [hterm w]
    rfl
  rw [hq, hif] at inv3
  simpa using inv3

/-- The state used to witness C4: a one-worker pool after the destructor
set the stop flag and the worker observed the empty queue and returned. -/
def shutdownDemoState : PoolState 1 :=
  { stop := true, queue := [],
    workers := Function.update (fun _ => WorkerState.idle) (0 : Fin 1)
      WorkerState.terminated,
    submitted := 0, executed := 0 }

/-- C4 witness: the drained-pool theorem applied to a concrete reachable
fully-terminated state. -/
theorem pool_shutdown_drains_witness :
    shutdownDemoState.queue = [] ∧
      shutdownDemoState.executed = Multiset.range shutdownDemoState.submitted := by
  have hreach : PoolReachable 1 1000 shutdownDemoState :=
    PoolReachable.step
      (PoolReachable.step PoolReachable.init (PoolStep.setStop (initState 1)))
      (PoolStep.terminate { initState 1 with stop := true } (0 : Fin 1) rfl rfl rfl)
  refine pool_shutdown_drains 1 1000 shutdownDemoState Nat.one_pos hreach ?_
  intro w
  fin_cases w
  simp [shutdownDemoState, Function.update_same]

/-- The three possible outcomes of `ThreadPool::enqueue`
(src/thread_pool.h lines 42-68) for a caller observing pool state `s`:
the call throws because the pool is stopped, blocks on the
queue-has-room condition variable, or appends the task and returns the
future handle. -/
inductive EnqueueOutcome (W : Nat) where
  | poolClosed
  | blocked
  | accepted (handle : Nat) (next : PoolState W)

/-- `ThreadPool::enqueue`: wait until `tasks.size() < maxQueueSize || stop`;
then throw if `stop`, else push the task onto the FIFO queue and return
its future. -/
def enqueue {W : Nat} (maxQ : Nat) (s : PoolState W) : EnqueueOutcome W :=
  if s.stop then EnqueueOutcome.poolClosed
  else if s.queue.length < maxQ then
    EnqueueOutcome.accepted s.submitted
      { s with queue := s.queue ++ [s.submitted], submitted := s.submitted + 1 }
  else EnqueueOutcome.blocked

/-- C5: `enqueue` raises the pool-closed error iff shutdown has been
initiated; with the queue at the configured maximum depth but the pool
open it blocks the caller instead of failing; and on success it appends
the task at the tail of the FIFO queue and returns the handle of its
eventual result. -/
theorem enqueue_spec (W maxQ : Nat) (s : PoolState W) :
    (enqueue maxQ s = EnqueueOutcome.poolClosed ↔ s.stop = true) ∧
      (enqueue maxQ s = EnqueueOutcome.blocked ↔
        (s.stop = false ∧ maxQ ≤ s.queue.length)) ∧
      (s.stop = false → s.queue.length < maxQ →
        enqueue maxQ s = EnqueueOutcome.accepted s.submitted
          { s with queue := s.queue ++ [s.submitted],
                   submitted := s.submitted + 1 }) := by
  cases hstop : s.stop with
  | true => simp [enqueue, hstop]
  | false =>
      by_cases hlen : s.queue.length < maxQ
      · simp [enqueue, hstop, hlen]
        try omega
      · simp [enqueue, hstop, hlen]
        try omega

/-- C5 witness: enqueueing on a fresh open one-worker pool succeeds,
appends task 0 to the queue and hands back its handle. -/
theorem enqueue_spec_witness :
    enqueue 1000 (initState 1) =
      EnqueueOutcome.accepted 0
        { stop := false, queue := [0], workers := fun _ => WorkerState.idle,
          submitted := 1, executed := 0 } :=
  (enqueue_spec 1 1000 (initState 1)).2.2 rfl (by decide)

/-! ### The transfer orchestrator (src/unnamed/part_000, src/main.cpp)

The upload and download drivers are embedded as functions of oracle
environments: each external call (S3 upload, DynamoDB write, filesystem
delete, ...) is an oracle returning the success flag the driver
branches on, keyed by the argument the source passes to the call.  The
embeddings additionally record which per-file tasks were submitted, so
the early-return error paths can be stated. -/

/-- Oracle outcomes for the external collaborators of `uploadMode`. -/
structure UploadEnv where
  createDir : String → Bool
  genJson : String → Bool
  storeMeta : String → Bool
  uploadS3 : String → Bool
  storeLoc : String → Bool
  deleteLocal : String → Bool

/-- The trace of one per-file upload task. -/
structure FileTaskResult where
  success : Bool
  deleteAttempted : Bool
  deleteSucceeded : Bool
deriving DecidableEq

/-- The per-DICOM-file upload task (src/unnamed/part_000 lines 204-236):
upload the file to S3 under `generateS3Key`; on success record the
location in DynamoDB — a failure there fails the task before any local
delete; otherwise delete the local copy, where a delete failure is only
logged (`LOG_WARNING`) and the task still returns `true`. -/
def fileUploadTask (env : UploadEnv) (studyUid filepath : String) : FileTaskResult :=
  if env.uploadS3 filepath then
    if env.storeLoc (generateS3Key studyUid filepath) then
      { success := true, deleteAttempted := true,
        deleteSucceeded := env.deleteLocal filepath }
    else { success := false, deleteAttempted := false, deleteSucceeded := false }
  else { success := false, deleteAttempted := false, deleteSucceeded := false }

/-- The non-DICOM upload task (src/unnamed/part_000 lines 263-298):
upload under the synthetic "other/" prefix, record nothing in DynamoDB,
and delete the local copy on success with the same non-fatal policy. -/
def nonDicomUploadTask (env : UploadEnv) (filepath : String) : FileTaskResult :=
  if env.uploadS3 filepath then
    { success := true, deleteAttempted := true,
      deleteSucceeded := env.deleteLocal filepath }
  else { success := false, deleteAttempted := false, deleteSucceeded := false }

/-- The metadata-JSON upload task (src/unnamed/part_000 lines 168-197):
upload the generated descriptor file; on success record its location;
no local delete happens inside this task. -/
def jsonUploadTask (env : UploadEnv) (jsonFilePath jsonS3Key : String) : Bool :=
  if env.uploadS3 jsonFilePath then env.storeLoc jsonS3Key else false

/-- The trace of one study's group task: its boolean outcome and the
local paths of the per-file upload tasks it submitted. -/
structure GroupTaskTrace where
  result : Bool
  submittedFileTasks : List String
deriving DecidableEq

/-- One study's group task (src/unnamed/part_000 lines 131-253): create
the temp directory, generate the descriptor JSON and persist the study
metadata in DynamoDB — each failure returns `false` before any file
upload is submitted; then submit the JSON upload and one upload task per
member file, and AND-reduce their outcomes. -/
def groupTask (env : UploadEnv) (sourcePath studyUid : String)
    (studyFiles : List String) : GroupTaskTrace :=
  let tempDir := joinPath sourcePath ("temp_" ++ studyUid)
  let jsonFilePath := joinPath tempDir (studyUid ++ ".json")
  if !(env.createDir tempDir) then { result := false, submittedFileTasks := [] }
  else if !(env.genJson jsonFilePath) then { result := false, submittedFileTasks := [] }
  else if !(env.storeMeta studyUid) then { result := false, submittedFileTasks := [] }
  else
    { result := reduce
        (jsonUploadTask env jsonFilePath
            ("studies/" ++ studyUid ++ "/" ++ getFileName jsonFilePath) ::
          studyFiles.map (fun fp => (fileUploadTask env studyUid fp).success)),
      submittedFileTasks := jsonFilePath :: studyFiles }

/-- The per-study fan-out of `uploadMode` (src/unnamed/part_000 lines
131-255): one group task per study of the grouping result. -/
def uploadRunTraces (env : UploadEnv) (sourcePath : String)
    (studyGroups : List (String × List String)) : List GroupTaskTrace :=
  studyGroups.map (fun g => groupTask env sourcePath g.1 g.2)

theorem fileUploadTask_congr (env env2 : UploadEnv) (studyUid fp : String)
    (hup : env.uploadS3 fp = env2.uploadS3 fp)
    (hloc : env.storeLoc (generateS3Key studyUid fp) =
      env2.storeLoc (generateS3Key studyUid fp))
    (hdel : env.deleteLocal fp = env2.deleteLocal fp) :
    fileUploadTask env studyUid fp = fileUploadTask env2 studyUid fp := by
  unfold fileUploadTask
  rw [hup, hloc, hdel]

/-- The temp directory a group task creates for its descriptor:
`joinPath(sourcePath, "temp_" + studyUid)`. -/
def tempDirOf (sourcePath studyUid : String) : String :=
  joinPath sourcePath ("temp_" ++ studyUid)

/-- The descriptor JSON path: `joinPath(tempDir, studyUid + ".json")`. -/
def jsonPathOf (sourcePath studyUid : String) : String :=
  joinPath (tempDirOf sourcePath studyUid) (studyUid ++ ".json")

/-- The remote key of the descriptor JSON:
`"studies/" + studyUid + "/" + getFileName(jsonFilePath)`. -/
def jsonKeyOf (sourcePath studyUid : String) : String :=
  "studies/" ++ studyUid ++ "/" ++ getFileName (jsonPathOf sourcePath studyUid)

theorem groupTask_congr (env env2 : UploadEnv) (sourcePath studyUid : String)
    (studyFiles : List String)
    (hcd : env.createDir (tempDirOf sourcePath studyUid) =
      env2.createDir (tempDirOf sourcePath studyUid))
    (hgj : env.genJson (jsonPathOf sourcePath studyUid) =
      env2.genJson (jsonPathOf sourcePath studyUid))
    (hsm : env.storeMeta studyUid = env2.storeMeta studyUid)
    (hupJ : env.uploadS3 (jsonPathOf sourcePath studyUid) =
      env2.uploadS3 (jsonPathOf sourcePath studyUid))
    (hlocJ : env.storeLoc (jsonKeyOf sourcePath studyUid) =
      env2.storeLoc (jsonKeyOf sourcePath studyUid))
    (hup : ∀ fp ∈ studyFiles, env.uploadS3 fp = env2.uploadS3 fp)
    (hloc : ∀ fp ∈ studyFiles, env.storeLoc (generateS3Key studyUid fp) =
      env2.storeLoc (generateS3Key studyUid fp))
    (hdel : ∀ fp ∈ studyFiles, env.deleteLocal fp = env2.deleteLocal fp) :
    groupTask env sourcePath studyUid studyFiles =
      groupTask env2 sourcePath studyUid studyFiles := by
  have hmap : studyFiles.map (fun fp => (fileUploadTask env studyUid fp).success) =
      studyFiles.map (fun fp => (fileUploadTask env2 studyUid fp).success) := by
    refine List.map_congr_left ?_
    intro fp hfp
    rw [fileUploadTask_congr env env2 studyUid fp (hup fp hfp) (hloc fp hfp)
      (hdel fp hfp)]
  simp only [tempDirOf, jsonPathOf, jsonKeyOf] at hcd hgj hupJ hlocJ
  simp only [groupTask, jsonUploadTask]
  rw [hcd, hgj, hsm, hupJ, hlocJ, hmap]

/-- C3: if persisting (or generating) a group's metadata descriptor
fails, the group task returns failure having submitted zero file-upload
tasks; the run maps each group to its own independent group task; and a
group task's trace depends only on the oracle outcomes for that group's
own inputs, so the processing and outcomes of every other group are
unaffected. -/
theorem group_metadata_failure_isolated (env env2 : UploadEnv)
    (sourcePath studyUid : String) (studyFiles : List String)
    (studyGroups : List (String × List String)) :
    (env.createDir (tempDirOf sourcePath studyUid) = true →
      env.genJson (jsonPathOf sourcePath studyUid) = true →
      env.storeMeta studyUid = false →
      groupTask env sourcePath studyUid studyFiles =
        { result := false, submittedFileTasks := [] }) ∧
      (env.createDir (tempDirOf sourcePath studyUid) = true →
        env.genJson (jsonPathOf sourcePath studyUid) = false →
        groupTask env sourcePath studyUid studyFiles =
          { result := false, submittedFileTasks := [] }) ∧
      (uploadRunTraces env sourcePath studyGroups =
        studyGroups.map (fun g => groupTask env sourcePath g.1 g.2)) ∧
      (env.createDir (tempDirOf sourcePath studyUid) =
          env2.createDir (tempDirOf sourcePath studyUid) →
        env.genJson (jsonPathOf sourcePath studyUid) =
          env2.genJson (jsonPathOf sourcePath studyUid) →
        env.storeMeta studyUid = env2.storeMeta studyUid →
        env.uploadS3 (jsonPathOf sourcePath studyUid) =
          env2.uploadS3 (jsonPathOf sourcePath studyUid) →
        env.storeLoc (jsonKeyOf sourcePath studyUid) =
          env2.storeLoc (jsonKeyOf sourcePath studyUid) →
        (∀ fp ∈ studyFiles, env.uploadS3 fp = env2.uploadS3 fp) →
        (∀ fp ∈ studyFiles, env.storeLoc (generateS3Key studyUid fp) =
          env2.storeLoc (generateS3Key studyUid fp)) →
        (∀ fp ∈ studyFiles, env.deleteLocal fp = env2.deleteLocal fp) →
        groupTask env sourcePath studyUid studyFiles =
          groupTask env2 sourcePath studyUid studyFiles) := by
  refine ⟨?_, ?_, rfl, ?_⟩
  · intro h1 h2 h3
    simp only [tempDirOf, jsonPathOf] at h1 h2
    simp [groupTask, h1, h2, h3]
  · intro h1 h2
    simp only [tempDirOf, jsonPathOf] at h1 h2
    simp [groupTask, h1, h2]
  · exact groupTask_congr env env2 sourcePath studyUid studyFiles

/-- A concrete oracle environment in which the DynamoDB metadata write
fails while everything else succeeds. -/
def demoMetaFailEnv : UploadEnv :=
  { createDir := fun _ => true, genJson := fun _ => true,
    storeMeta := fun _ => false, uploadS3 := fun _ => true,
    storeLoc := fun _ => true, deleteLocal := fun _ => true }

/-- C3 witness: with the metadata write failing, the concrete group task
fails with zero submitted file uploads. -/
theorem group_metadata_failure_isolated_witness :
    groupTask demoMetaFailEnv "src" "1.2.3" ["a.dcm"] =
      { result := false, submittedFileTasks := [] } :=
  (group_metadata_failure_isolated demoMetaFailEnv demoMetaFailEnv
    "src" "1.2.3" ["a.dcm"] []).1 rfl rfl rfl

/-- C8: once the S3 upload and the DynamoDB location append have
succeeded, the file task reports success whatever the local delete
oracle returns — a local-cleanup failure never turns a confirmed upload
into a failed outcome, for DICOM and non-DICOM upload tasks alike. -/
theorem local_cleanup_failure_nonfatal (env : UploadEnv) (studyUid fp : String)
    (hup : env.uploadS3 fp = true)
    (hloc : env.storeLoc (generateS3Key studyUid fp) = true) :
    (fileUploadTask env studyUid fp).success = true ∧
      (∀ d : String → Bool,
        (fileUploadTask { env with deleteLocal := d } studyUid fp).success = true) ∧
      (∀ d : String → Bool,
        (nonDicomUploadTask { env with deleteLocal := d } fp).success = true) := by
  refine ⟨?_, ?_, ?_⟩ <;>
    simp [fileUploadTask, nonDicomUploadTask, hup, hloc]

/-- A concrete oracle environment in which the remote transfer and the
location append succeed but every local delete fails. -/
def demoCleanupFailEnv : UploadEnv :=
  { createDir := fun _ => true, genJson := fun _ => true,
    storeMeta := fun _ => true, uploadS3 := fun _ => true,
    storeLoc := fun _ => true, deleteLocal := fun _ => false }

/-- C8 witness: with the delete oracle failing, the concrete file task
still reports success. -/
theorem local_cleanup_failure_nonfatal_witness :
    (fileUploadTask demoCleanupFailEnv "1.2.3" "d/x.dcm").success = true :=
  (local_cleanup_failure_nonfatal demoCleanupFailEnv "1.2.3" "d/x.dcm" rfl rfl).1

/-- C9: a per-file upload task succeeds iff both the S3 upload and the
DynamoDB location append succeed; when the upload succeeds but the
append fails, the task fails and no local delete is attempted, leaving
an uploaded-but-unrecorded remote object. -/
theorem upload_recorded_iff_both_succeed (env : UploadEnv) (studyUid fp : String) :
    ((fileUploadTask env studyUid fp).success =
        (env.uploadS3 fp && env.storeLoc (generateS3Key studyUid fp))) ∧
      (env.uploadS3 fp = true →
        env.storeLoc (generateS3Key studyUid fp) = false →
        (fileUploadTask env studyUid fp).success = false ∧
          (fileUploadTask env studyUid fp).deleteAttempted = false) := by
  constructor
  · cases h1 : env.uploadS3 fp <;>
      cases h2 : env.storeLoc (generateS3Key studyUid fp) <;>
        simp [fileUploadTask, h1, h2]
  · intro h1 h2
    simp [fileUploadTask, h1, h2]

/-- A concrete oracle environment in which S3 uploads succeed and every
DynamoDB location append fails. -/
def demoOrphanEnv : UploadEnv :=
  { createDir := fun _ => true, genJson := fun _ => true,
    storeMeta := fun _ => true, uploadS3 := fun _ => true,
    storeLoc := fun _ => false, deleteLocal := fun _ => true }

/-- C9 witness: upload succeeded, append failed — the concrete task
fails and the local file was not deleted. -/
theorem upload_recorded_iff_both_succeed_witness :
    (fileUploadTask demoOrphanEnv "1.2.3" "x.dcm").success = false ∧
      (fileUploadTask demoOrphanEnv "1.2.3" "x.dcm").deleteAttempted = false :=
  (upload_recorded_iff_both_succeed demoOrphanEnv "1.2.3" "x.dcm").2 rfl rfl

/-! ### The download driver (src/unnamed/part_000 lines 321-404) -/

/-- Which early-return branch (if any) `downloadMode` took.  The source
distinguishes the branches by distinct log messages and return sites. -/
inductive DownloadBranch where
  | createDirFailed
  | groupNotFound
  | noFilesForGroup
  | completed
deriving DecidableEq

/-- The trace of one download run: the branch taken, the S3 keys of the
submitted download tasks, and the returned boolean. -/
structure DownloadTrace where
  branch : DownloadBranch
  submittedDownloads : List String
  result : Bool
deriving DecidableEq

/-- Oracle outcomes for the external collaborators of `downloadMode`.
`studyMetadata` is `none` when the study's metadata document is absent
from DynamoDB (`getStudyMetadata` then returns false); the document's
content is never inspected by the driver, so it is elided. -/
structure DownloadEnv where
  createOutputDir : Bool
  studyMetadata : Option Unit
  fileLocations : List String
  downloadS3 : String → Bool

/-- `downloadMode` (src/unnamed/part_000 lines 321-404): create the
output directory, fetch the study metadata (failure aborts the run),
fetch the location list (an empty list aborts the run), then submit one
download task per location and AND-reduce the outcomes. -/
def downloadMode (env : DownloadEnv) : DownloadTrace :=
  if !env.createOutputDir then
    { branch := DownloadBranch.createDirFailed, submittedDownloads := [],
      result := false }
  else
    match env.studyMetadata with
    | none =>
        { branch := DownloadBranch.groupNotFound, submittedDownloads := [],
          result := false }
    | some _ =>
        if env.fileLocations = [] then
          { branch := DownloadBranch.noFilesForGroup, submittedDownloads := [],
            result := false }
        else
          { branch := DownloadBranch.completed,
            submittedDownloads := env.fileLocations,
            result := reduce (env.fileLocations.map env.downloadS3) }

/-- C7: a download run whose study metadata document is absent fails in
the group-not-found branch with zero download tasks submitted; a run
whose document exists but whose recorded location list is empty fails in
the distinct no-files-for-group branch, likewise before any download
task is submitted. -/
theorem download_terminal_failures (env : DownloadEnv) :
    (env.createOutputDir = true → env.studyMetadata = none →
      downloadMode env =
        { branch := DownloadBranch.groupNotFound, submittedDownloads := [],
          result := false }) ∧
      (∀ m : Unit, env.createOutputDir = true → env.studyMetadata = some m →
        env.fileLocations = [] →
        downloadMode env =
          { branch := DownloadBranch.noFilesForGroup, submittedDownloads := [],
            result := false }) ∧
      DownloadBranch.groupNotFound ≠ DownloadBranch.noFilesForGroup := by
  refine ⟨?_, ?_, by simp⟩
  · intro h1 h2
    simp [downloadMode, h1, h2]
  · intro m h1 h2 h3
    simp [downloadMode, h1, h2, h3]

/-- C7 witness: a concrete run with the metadata document absent fails
in the group-not-found branch with no submitted downloads. -/
theorem download_terminal_failures_witness :
    downloadMode
        { createOutputDir := true, studyMetadata := none,
          fileLocations := ["studies/1.2.3/x.dcm"], downloadS3 := fun _ => true } =
      { branch := DownloadBranch.groupNotFound, submittedDownloads := [],
        result := false } :=
  (download_terminal_failures
    { createOutputDir := true, studyMetadata := none,
      fileLocations := ["studies/1.2.3/x.dcm"], downloadS3 := fun _ => true }).1
    rfl rfl

end DicomTransfer
